import Mathlib

/- Verification of the PuppeteerSocial automation core: URL canonicalization,
the discovery/deduplication loop, the login gate, the like and comment
actions, and the auto-comment orchestrator loop, shallowly embedded from
`bot.js` and `instagram-functions.js`. -/

namespace PuppeteerSocial

/-! ## URL canonicalization

Embeds the `clean` helper used by `discoverInstagramPosts` and
`ensurePermalinkView` in `instagram-functions.js`:
`const url = new URL(u, location.origin); return url.origin + url.pathname;`
(`null` on parse failure).  The WHATWG parser is modelled for the URL forms
the repository's pages produce: absolute `scheme://host[/path][?query][#frag]`
URLs and path-absolute references `/path[?query][#frag]` resolved against the
page origin.  Strings are `List Char`. -/

def schemeStops : List Char := [':', '/', '?', '#']

def hostStops : List Char := ['/', '?', '#']

def pathStops : List Char := ['?', '#']

def fragStop : List Char := ['#']

def sepChars : List Char := [':', '/', '/']

/-- Split a character list at the first occurrence of any stop character:
returns (chars before the first stop, remainder beginning with the stop). -/
def splitFirst (stops : List Char) : List Char → List Char × List Char
  | [] => ([], [])
  | c :: cs =>
    if c ∈ stops then ([], c :: cs)
    else
      let p := splitFirst stops cs
      (c :: p.1, p.2)

structure UrlParts where
  scheme : List Char
  host : List Char
  path : List Char
  query : List Char
  frag : List Char
deriving DecidableEq

/-- Parse an absolute `scheme://host[/path][?query][#frag]` URL. -/
def parseAbs (s : List Char) : Option UrlParts :=
  let p1 := splitFirst schemeStops s
  if p1.1 = [] then none
  else if p1.2.take 3 ≠ sepChars then none
  else
    let p2 := splitFirst hostStops (p1.2.drop 3)
    if p2.1 = [] then none
    else
      let p3 := splitFirst pathStops p2.2
      if p3.2.head? = some '?' then
        let p4 := splitFirst fragStop p3.2.tail
        if p4.2.head? = some '#' then some ⟨p1.1, p2.1, p3.1, p4.1, p4.2.tail⟩
        else some ⟨p1.1, p2.1, p3.1, p4.1, []⟩
      else if p3.2.head? = some '#' then some ⟨p1.1, p2.1, p3.1, [], p3.2.tail⟩
      else some ⟨p1.1, p2.1, p3.1, [], []⟩

/-- `url.origin + url.pathname`: the pathname of a parsed http(s) URL is "/"
when the path component is empty. -/
def renderClean (u : UrlParts) : List Char :=
  u.scheme ++ ':' :: '/' :: '/' :: (u.host ++ (if u.path = [] then ['/'] else u.path))

/-- The `clean` helper: canonicalize a URL string against the page origin
`base`, keeping only origin and pathname; `none` models the `catch` branch
returning `null`. -/
def cleanUrl (base : UrlParts) (s : List Char) : Option (List Char) :=
  match parseAbs s with
  | some u => some (renderClean u)
  | none =>
    if s.head? = some '/' then
      some (renderClean ⟨base.scheme, base.host, (splitFirst pathStops s).1, [], []⟩)
    else none

/-- Assemble an absolute URL from components (for stating query/fragment
insensitivity). -/
def renderFull (scheme host path query frag : List Char) : List Char :=
  scheme ++ ':' :: '/' :: '/' ::
    (host ++ (path ++ ((if query = [] then [] else '?' :: query)
      ++ (if frag = [] then [] else '#' :: frag))))

def goodScheme (l : List Char) : Prop := l ≠ [] ∧ ∀ c ∈ l, c ∉ schemeStops

def goodHost (l : List Char) : Prop := l ≠ [] ∧ ∀ c ∈ l, c ∉ hostStops

def goodPath (l : List Char) : Prop :=
  (l = [] ∨ l.head? = some '/') ∧ ∀ c ∈ l, c ∉ pathStops

def validBase (b : UrlParts) : Prop := goodScheme b.scheme ∧ goodHost b.host

instance (l : List Char) : Decidable (goodScheme l) := by
  unfold goodScheme; infer_instance

instance (l : List Char) : Decidable (goodHost l) := by
  unfold goodHost; infer_instance

instance (l : List Char) : Decidable (goodPath l) := by
  unfold goodPath; infer_instance

instance (b : UrlParts) : Decidable (validBase b) := by
  unfold validBase; infer_instance

def headIn (stops : List Char) : List Char → Prop
  | [] => True
  | c :: _ => c ∈ stops

def igBase : UrlParts :=
  ⟨"https".data, "www.instagram.com".data, [], [], []⟩

def igTagUrlStart : List Char := "https://www.instagram.com/explore/tags/".data

def slashEnd : List Char := "/".data

/-- JS `s.replace('#','')` with a string pattern removes only the first
occurrence. -/
def removeFirstHash : List Char → List Char
  | [] => []
  | c :: cs => if c = '#' then cs else c :: removeFirstHash cs

structure SearchCriteria where
  hashtag : Option (List Char)
  keywords : Option (List Char)

/-- JS truthiness of the string fields: `undefined`/`null` and `''` are falsy. -/
def truthyStr : Option (List Char) → Bool
  | none => false
  | some s => !s.isEmpty

/-- The `searchUrl` computation at the top of `discoverInstagramPosts`:
`https://www.instagram.com/explore/tags/${tag.replace('#','')}/`, preferring
`hashtag` over `keywords`; `none` models the thrown
`Either hashtag or keywords must be provided` error. -/
def searchUrlOf (c : SearchCriteria) : Option (List Char) :=
  if truthyStr c.hashtag then
    some (igTagUrlStart ++ removeFirstHash (c.hashtag.getD []) ++ slashEnd)
  else if truthyStr c.keywords then
    some (igTagUrlStart ++ removeFirstHash (c.keywords.getD []) ++ slashEnd)
  else none

def subPost : List Char := "/p/".data

def subReel : List Char := "/reel/".data

def subLikedBy : List Char := "/liked_by/".data

def subComment : List Char := "/c/".data

/-- JS `hay.includes(needle)`. -/
def containsSub (needle : List Char) : List Char → Bool
  | [] => needle.isEmpty
  | c :: cs => needle.isPrefixOf (c :: cs) || containsSub needle cs

/-- The anchor filter of the extraction step: permalink-looking cleaned hrefs,
with `liked_by` and comment sublists removed. -/
def igPermalinkFilter (h : List Char) : Bool :=
  (containsSub subPost h || containsSub subReel h)
    && !containsSub subLikedBy h && !containsSub subComment h

/-- One `page.evaluate` extraction: clean every anchor href against the page
origin, keep permalink-like ones, cap at 80. -/
def extractLinks (links : List (List Char)) : List (List Char) :=
  (((links.filterMap (cleanUrl igBase)).filter igPermalinkFilter).take 80)

/-- What one iteration of the discovery loop observes on the page. -/
structure Snapshot where
  links : List (List Char)
  heightChanged : Bool

/-- The inner `for (const postUrl of newPosts)` loop: push a url onto `posts`
and `allDiscoveredPosts` only if it is in neither and the target count is not
yet reached. -/
def addNewPosts (maxPosts : Nat) :
    List (List Char) → List (List Char) → List (List Char) →
    List (List Char) × List (List Char)
  | [], posts, seen => (posts, seen)
  | u :: us, posts, seen =>
    if u ∉ posts ∧ u ∉ seen ∧ posts.length < maxPosts then
      addNewPosts maxPosts us (posts ++ [u]) (seen ++ [u])
    else addNewPosts maxPosts us posts seen

/-- The discovery `while (posts.length < maxPosts)` loop.  Returns the
collected batch, the grown seen-set, and the number of loop iterations
(the source's `attempts` counter).  `cfs` is `consecutiveFailedScrolls`
(bound 10). -/
def discoverLoop (maxPosts : Nat) :
    List Snapshot → List (List Char) → List (List Char) → Nat → Nat →
    List (List Char) × List (List Char) × Nat
  | snaps, posts, seen, cfs, att =>
    if maxPosts ≤ posts.length then (posts, seen, att)
    else
      match snaps with
      | [] => (posts, seen, att)
      | snap :: rest =>
        let pr := addNewPosts maxPosts (extractLinks snap.links) posts seen
        if maxPosts ≤ pr.1.length then (pr.1, pr.2, att + 1)
        else if snap.heightChanged then discoverLoop maxPosts rest pr.1 pr.2 0 (att + 1)
        else if 10 ≤ cfs + 1 then (pr.1, pr.2, att + 1)
        else discoverLoop maxPosts rest pr.1 pr.2 (cfs + 1) (att + 1)

/-- The module-level discovery state of `instagram-functions.js`. -/
structure DiscState where
  seen : List (List Char)
  isOnSearchPage : Bool
  currentSearchUrl : Option (List Char)
deriving DecidableEq

/-- `resetDiscoveryState()`. -/
def resetDiscoveryState : DiscState := ⟨[], false, none⟩

structure DiscResult where
  result : Except (List Char) (List (List Char))
  state : DiscState
  navigated : Bool

def errNoCriteria : List Char :=
  "Either hashtag or keywords must be provided".data

def errLoginRequired : List Char :=
  "Instagram login required for post discovery".data

/-- `discoverInstagramPosts(page, searchCriteria, maxPosts)`.  The search-url
computation (and its throw) happens before any page use; navigation happens
only when not already parked on the same listing; a login wall detected after
that throws; then the scroll/extract loop runs. -/
def discoverInstagramPosts (criteria : SearchCriteria) (loginWall : Bool)
    (snaps : List Snapshot) (maxPosts : Nat) (st : DiscState) : DiscResult :=
  match searchUrlOf criteria with
  | none => ⟨.error errNoCriteria, st, false⟩
  | some url =>
    let navigated := !(st.isOnSearchPage && (st.currentSearchUrl == some url))
    let st1 := if navigated then
        { st with isOnSearchPage := true, currentSearchUrl := some url }
      else st
    if loginWall then ⟨.error errLoginRequired, st1, navigated⟩
    else
      let r := discoverLoop maxPosts snaps [] st1.seen 0 0
      ⟨.ok r.1, { st1 with seen := r.2.1 }, navigated⟩

structure LoginPage where
  q : String → Bool
  qErrText : String → Bool
  urlHasLoginRoute : Bool
  titleHasLoginWord : Bool
  titleHasSignupWord : Bool
  bodyHasCredentialErrorText : Bool

def loginIndicators : List String :=
  ["svg[aria-label=\"Home\"]", "svg[aria-label=\"Search\"]",
   "svg[aria-label=\"New post\"]", "svg[aria-label=\"Activity Feed\"]",
   "svg[aria-label=\"Profile\"]", "[data-testid=\"user-avatar\"]",
   "a[aria-label*=\"Profile\"]", "a[href*=\"/accounts/edit/\"]",
   "nav[role=\"navigation\"]", "[role=\"main\"]"]

def loginFormElements : List String :=
  ["input[name=\"username\"]", "input[name=\"password\"]",
   "input[placeholder*=\"Phone number, username, or email\"]"]

def postSubmitIndicators : List String :=
  ["svg[aria-label=\"Home\"]", "[data-testid=\"user-avatar\"]",
   "a[aria-label*=\"Profile\"]", "svg[aria-label=\"Search\"]",
   "svg[aria-label=\"New post\"]", "a[href*=\"/accounts/edit/\"]",
   "nav[role=\"navigation\"]", "[role=\"main\"]"]

def loginErrorSelectors : List String :=
  ["#slfErrorAlert", "[role=\"alert\"]",
   "[data-testid=\"loginForm\"] div[role=\"alert\"]"]

def selUsername : String := "input[name=\"username\"]"

def selPassword : String := "input[name=\"password\"]"

/-- The initial `page.evaluate` classification: logged in iff at least one
chrome indicator is present AND no login-form field is present AND the URL is
not the login route AND the title does not say Login / Sign up (with an early
`false` on the login route). -/
def initialLoginCheck (p : LoginPage) : Bool :=
  if p.urlHasLoginRoute then false
  else
    (loginIndicators.any p.q) && !(loginFormElements.any p.q)
      && !p.urlHasLoginRoute && !(p.titleHasLoginWord || p.titleHasSignupWord)

/-- `stillOnLoginPage` of the post-submit check: URL is the login route or a
credential field is still present. -/
def stillOnLoginPage (p : LoginPage) : Bool :=
  p.urlHasLoginRoute || p.q selUsername || p.q selPassword

/-- `hasErrors` of the post-submit check: an error selector with nonempty
text, or a recognized credential-error body text. -/
def hasLoginErrors (p : LoginPage) : Bool :=
  loginErrorSelectors.any p.qErrText || p.bodyHasCredentialErrorText

/-- The post-submit `page.evaluate` success check:
`(hasIndicators || notOnLoginPage) && !hasErrors`. -/
def postSubmitLoginCheck (p : LoginPage) : Bool :=
  ((postSubmitIndicators.any p.q) || !stillOnLoginPage p) && !hasLoginErrors p

/-! ## Favorite action (`instagramLike`)

`likedPosts` is the module-level in-run set, threaded explicitly.  The page
is abstracted as the outcomes the strategies would observe. -/

structure LikeEnv where
  navThrows : Bool
  navErrorMessage : List Char
  mediaIdFound : Bool
  alreadyLikedOnPage : Bool
  api1Ok : Bool
  api2Ok : Bool
  uiButtonFound : Bool
  uiVerifyLiked : Bool

inductive LikeEffect
  | navigate
  | apiLike1
  | apiLike2
  | clickLike
deriving DecidableEq

/-- `instagramLike(page, postUrl)`: immediate success when the url is in the
in-run liked set; otherwise navigate, bail out (`false`) without caching when
no media id is found, record-and-succeed when the page already shows the
liked state, then try API endpoint 1, API endpoint 2, and the UI click with
re-verification; every successful path adds the url to `likedPosts` first.
A navigation error is rethrown (`Except.error`). -/
def instagramLike (env : LikeEnv) (likedPosts : List (List Char))
    (postUrl : List Char) :
    Except (List Char) Bool × List (List Char) × List LikeEffect :=
  if postUrl ∈ likedPosts then (.ok true, likedPosts, [])
  else if env.navThrows then
    (.error env.navErrorMessage, likedPosts, [LikeEffect.navigate])
  else if !env.mediaIdFound then (.ok false, likedPosts, [LikeEffect.navigate])
  else if env.alreadyLikedOnPage then
    (.ok true, postUrl :: likedPosts, [LikeEffect.navigate])
  else if env.api1Ok then
    (.ok true, postUrl :: likedPosts, [LikeEffect.navigate, LikeEffect.apiLike1])
  else if env.api2Ok then
    (.ok true, postUrl :: likedPosts,
      [LikeEffect.navigate, LikeEffect.apiLike1, LikeEffect.apiLike2])
  else if env.uiButtonFound && env.uiVerifyLiked then
    (.ok true, postUrl :: likedPosts,
      [LikeEffect.navigate, LikeEffect.apiLike1, LikeEffect.apiLike2, LikeEffect.clickLike])
  else if env.uiButtonFound then
    (.ok false, likedPosts,
      [LikeEffect.navigate, LikeEffect.apiLike1, LikeEffect.apiLike2, LikeEffect.clickLike])
  else
    (.ok false, likedPosts, [LikeEffect.navigate, LikeEffect.apiLike1, LikeEffect.apiLike2])

/-! ## Reply action (`instagramComment`)

The page is abstracted as the booleans the function's steps would observe.
`alreadyCommented` is the answer from `hasMyCommentAndCache`.
Modelled from the spec: `hasMyCommentAndCache` itself lives in
`utils/igHasMyComment.js`, which is not among the sources; per the spec it is
the external prior-action cache `hasPriorAction(accountId, itemId) -> bool`,
a read-mostly lookup, so it is modelled as an effect-free boolean oracle. -/

structure CommentEnv where
  alreadyCommented : Bool
  navThrows : Bool
  navErrorMessage : List Char
  inputFound : Bool
  inputFoundAfterScroll : Bool
  typedOk : Bool
  submitButtonFound : Bool
  enterPosted : Bool
  verifyTextFound : Bool
  inputClearedAfterSubmit : Bool

inductive PageEffect
  | navigate
  | scroll
  | typeText
  | clickSubmit
  | pressEnter
deriving DecidableEq

structure CommentOutcome where
  success : Bool
  skipped : Bool
  reason : Option (List Char)
deriving DecidableEq

def msgAlreadyCommented : List Char := "Already commented on this post".data

def msgInputNotFound : List Char := "Comment input field not found".data

def msgButtonNotFound : List Char := "Post button not found".data

/-- The part of `instagramComment` after a comment input was located: type
(retype once on read-back mismatch), then either click a found submit control
— after which the function reports success whether or not the final
text-presence verification passes ("assuming success") — or fall back to the
Enter key, succeeding only if the text then appears, else fail with
`Post button not found`.  Note that the final verification of the source
reads only the text presence (`env.verifyTextFound`), not the
`inputClearedAfterSubmit` signal. -/
def commentAfterInput (env : CommentEnv) (effs : List PageEffect) :
    CommentOutcome × List PageEffect :=
  let typeE := effs ++ (if env.typedOk then [PageEffect.typeText]
    else [PageEffect.typeText, PageEffect.typeText])
  if env.submitButtonFound then
    (⟨true, false, none⟩, typeE ++ [PageEffect.clickSubmit])
  else if env.enterPosted then
    (⟨true, false, none⟩, typeE ++ [PageEffect.pressEnter])
  else
    (⟨false, false, some msgButtonNotFound⟩, typeE ++ [PageEffect.pressEnter])

/-- `instagramComment(page, postUrl, comment, username, skipNavigation)`:
skip outcome when the prior-action cache already has a reply; otherwise
navigate (unless told not to), search for the comment input (once more after
a scroll), and continue in `commentAfterInput`.  The outer `catch` converts a
thrown navigation error into a failure outcome — the function never throws. -/
def instagramComment (env : CommentEnv) (skipNavigation : Bool) :
    CommentOutcome × List PageEffect :=
  if env.alreadyCommented then
    (⟨false, true, some msgAlreadyCommented⟩, [])
  else if !skipNavigation && env.navThrows then
    (⟨false, false, some env.navErrorMessage⟩, [PageEffect.navigate])
  else
    let navE := if skipNavigation then ([] : List PageEffect) else [PageEffect.navigate]
    if env.inputFound then commentAfterInput env navE
    else if env.inputFoundAfterScroll then
      commentAfterInput env (navE ++ [PageEffect.scroll])
    else
      (⟨false, false, some msgInputNotFound⟩, navE ++ [PageEffect.scroll])

/-! ## Orchestrator: the auto-comment batch loop of `runAction` (`bot.js`)

Each iteration requests a batch of size `Math.min(10, maxPosts * 2)`; an
empty batch bumps `consecutiveEmptyBatches` (stop at 5); a thrown batch-level
error breaks the loop; per-post processing is abstracted as a `PostOutcome`
(only `success` increments `successfulComments`; every other outcome is a
`continue`).  The loop is run against a finite prefix of batch interactions;
`none` as the second component means the loop had not yet stopped when the
modelled input was exhausted. -/

inductive PostOutcome
  | lowContent
  | videoSkip
  | alreadyCommented
  | commentSkipped
  | commentFailed
  | processError
  | success
deriving DecidableEq

inductive BatchInput
  | fatal
  | batch (posts : List PostOutcome)
deriving DecidableEq

inductive StopReason
  | targetReached
  | contentExhausted
  | fatalError
deriving DecidableEq

/-- `const batchSize = Math.min(10, maxPosts * 2)`. -/
def requestedBatchSize (maxPosts : Nat) : Nat := min 10 (maxPosts * 2)

/-- Modelled from the spec: "request a batch (size = min(10, 2 × targetCount
remaining))" — the batch size the spec claims, for comparison with
`requestedBatchSize`. -/
def batchSizeSpec (maxPosts succeeded : Nat) : Nat :=
  min 10 (2 * (maxPosts - succeeded))

/-- The inner `for (const postUrl of posts)` loop: break when the target is
reached, count only actually-posted comments. -/
def processBatch (target : Nat) : Nat → List PostOutcome → Nat
  | succ, [] => succ
  | succ, p :: rest =>
    if target ≤ succ then succ
    else processBatch target (if p = PostOutcome.success then succ + 1 else succ) rest

/-- The `while (successfulComments < maxPosts)` loop.  Returns the trace of
(requested batch size, successfulComments at request time) pairs and, when
the loop stopped, the final count with its stop reason. -/
def autoCommentLoop (target : Nat) :
    List BatchInput → Nat → Nat → List (Nat × Nat) →
    List (Nat × Nat) × Option (Nat × StopReason)
  | [], succ, _, trace =>
    if target ≤ succ then (trace, some (succ, StopReason.targetReached))
    else (trace, none)
  | BatchInput.fatal :: _, succ, _, trace =>
    if target ≤ succ then (trace, some (succ, StopReason.targetReached))
    else (trace ++ [(requestedBatchSize target, succ)],
      some (succ, StopReason.fatalError))
  | BatchInput.batch posts :: rest, succ, ceb, trace =>
    if target ≤ succ then (trace, some (succ, StopReason.targetReached))
    else
      let trace1 := trace ++ [(requestedBatchSize target, succ)]
      if posts.isEmpty then
        if 5 ≤ ceb + 1 then (trace1, some (succ, StopReason.contentExhausted))
        else autoCommentLoop target rest succ (ceb + 1) trace1
      else autoCommentLoop target rest (processBatch target succ posts) 0 trace1

def tagW : SearchCriteria := ⟨some ("tag".data), none⟩

def hrefW : List Char := "https://www.instagram.com/p/abc1/?x=1".data

def snapW : Snapshot := ⟨[hrefW], true⟩

def postW : List Char := "https://www.instagram.com/p/abc1/".data

/-! ## Claim C3: canonicalization -/

def schemeHttps : List Char := "https".data

def hostXW : List Char := "x".data

def pathAbcW : List Char := "/p/abc".data

def queryHlW : List Char := "hl=en".data

def urlHlW : List Char := "https://x/p/abc?hl=en".data

def urlPlainW : List Char := "https://x/p/abc".data

/-! ## Claim C4: reply-action verification and outcomes -/

def c4Env : CommentEnv :=
  ⟨false, false, [], true, false, true, true, false, false, false⟩

def c4EnvW : CommentEnv :=
  ⟨false, false, [], false, false, true, false, false, false, false⟩

/-! ## Claim C5: the two login classifications -/

def emptyRedirectPage : LoginPage :=
  ⟨fun _ => false, fun _ => false, false, false, false, false⟩

def loginFormPage : LoginPage :=
  ⟨fun s => s == selUsername, fun _ => false, false, false, false, false⟩

/-! ## Theorems -/

theorem splitFirst_append (stops a b : List Char)
    (ha : ∀ c ∈ a, c ∉ stops) (hb : headIn stops b) :
    splitFirst stops (a ++ b) = (a, b) := by
  induction a with
  | nil =>
    cases b with
    | nil => rfl
    | cons c cs =>
      simp only [headIn] at hb
      simp [splitFirst, hb]
  | cons x xs ih =>
    have hx : x ∉ stops := ha x (by simp)
    have ih' := ih (fun c hc => ha c (by simp [hc]))
    simp [splitFirst, hx, ih']

theorem splitFirst_fst_not_mem (stops l : List Char) :
    ∀ c ∈ (splitFirst stops l).1, c ∉ stops := by
  induction l with
  | nil => simp [splitFirst]
  | cons x xs ih =>
    by_cases hx : x ∈ stops
    · simp [splitFirst, hx]
    · simp only [splitFirst, if_neg hx]
      intro c hc
      rcases List.mem_cons.mp hc with h | h
      · exact h ▸ hx
      · exact ih c h

theorem splitFirst_snd_head (stops l : List Char) :
    headIn stops (splitFirst stops l).2 := by
  induction l with
  | nil => simp [splitFirst, headIn]
  | cons x xs ih =>
    by_cases hx : x ∈ stops
    · simp [splitFirst, hx, headIn]
    · simpa [splitFirst, hx] using ih

theorem splitFirst_fst_head (stops : List Char) (c : Char) (cs : List Char)
    (hc : c ∉ stops) :
    (splitFirst stops (c :: cs)).1.head? = some c := by
  simp [splitFirst, hc]

theorem parseAbs_renderFull (scheme host path q f : List Char)
    (hs : goodScheme scheme) (hh : goodHost host) (hp : goodPath path)
    (hq : '#' ∉ q) :
    parseAbs (renderFull scheme host path q f) = some ⟨scheme, host, path, q, f⟩ := by
  have hsep : headIn schemeStops
      (':' :: '/' :: '/' :: (host ++ (path ++ ((if q = [] then [] else '?' :: q)
        ++ (if f = [] then [] else '#' :: f))))) := by
    simp [headIn, schemeStops]
  have h1 : splitFirst schemeStops (renderFull scheme host path q f) =
      (scheme, ':' :: '/' :: '/' :: (host ++ (path ++ ((if q = [] then [] else '?' :: q)
        ++ (if f = [] then [] else '#' :: f))))) := by
    unfold renderFull
    exact splitFirst_append _ _ _ hs.2 hsep
  have hq2 : headIn hostStops (path ++ ((if q = [] then [] else '?' :: q)
      ++ (if f = [] then [] else '#' :: f))) := by
    rcases hp.1 with hpe | hph
    · subst hpe
      by_cases hq0 : q = []
      · by_cases hf0 : f = []
        · simp [hq0, hf0, headIn]
        · simp [hq0, hf0, headIn, hostStops]
      · simp [hq0, headIn, hostStops]
    · cases path with
      | nil => simp at hph
      | cons c cs =>
        simp only [List.head?] at hph
        injection hph with hph
        subst hph
        simp [headIn, hostStops]
  have h2 : splitFirst hostStops (host ++ (path ++ ((if q = [] then [] else '?' :: q)
      ++ (if f = [] then [] else '#' :: f)))) =
      (host, path ++ ((if q = [] then [] else '?' :: q)
        ++ (if f = [] then [] else '#' :: f))) :=
    splitFirst_append _ _ _ hh.2 hq2
  have hq3 : headIn pathStops ((if q = [] then [] else '?' :: q)
      ++ (if f = [] then [] else '#' :: f)) := by
    by_cases hq0 : q = []
    · by_cases hf0 : f = []
      · simp [hq0, hf0, headIn]
      · simp [hq0, hf0, headIn, pathStops]
    · simp [hq0, headIn, pathStops]
  have h3 : splitFirst pathStops (path ++ ((if q = [] then [] else '?' :: q)
      ++ (if f = [] then [] else '#' :: f))) =
      (path, (if q = [] then [] else '?' :: q)
        ++ (if f = [] then [] else '#' :: f)) :=
    splitFirst_append _ _ _ hp.2 hq3
  unfold parseAbs
  rw [h1]
  simp only [List.take, List.drop]
  rw [if_neg (by simp [hs.1]), if_neg (by simp [sepChars]), h2]
  rw [if_neg (by simp [hh.1]), h3]
  by_cases hq0 : q = []
  · by_cases hf0 : f = []
    · simp [hq0, hf0]
    · cases f with
      | nil => exact absurd rfl hf0
      | cons fc fcs => simp [hq0]
  · cases q with
    | nil => exact absurd rfl hq0
    | cons qc qcs =>
      have hqs : ∀ c ∈ qc :: qcs, c ∉ fragStop := by
        intro c hc
        simp only [fragStop, List.mem_singleton]
        intro hcEq
        exact hq (hcEq ▸ hc)
      by_cases hf0 : f = []
      · subst hf0
        have hq4 : splitFirst fragStop (qc :: qcs) = (qc :: qcs, []) := by
          have := splitFirst_append fragStop (qc :: qcs) [] hqs (by simp [headIn])
          simpa using this
        simp [hq4]
      · cases f with
        | nil => exact absurd rfl hf0
        | cons fc fcs =>
          have hq4 : splitFirst fragStop (qc :: qcs ++ '#' :: fc :: fcs) =
              (qc :: qcs, '#' :: fc :: fcs) :=
            splitFirst_append fragStop (qc :: qcs) ('#' :: fc :: fcs) hqs
              (by simp [headIn, fragStop])
          rw [List.cons_append] at hq4
          simp [hq4]

theorem renderFull_no_query (scheme host path : List Char) :
    renderFull scheme host path [] [] = scheme ++ ':' :: '/' :: '/' :: (host ++ path) := by
  simp [renderFull]

theorem parseAbs_renderClean (u : UrlParts)
    (hs : goodScheme u.scheme) (hh : goodHost u.host) (hp : goodPath u.path) :
    parseAbs (renderClean u) =
      some ⟨u.scheme, u.host, (if u.path = [] then ['/'] else u.path), [], []⟩ := by
  have hgood : goodPath (if u.path = [] then ['/'] else u.path) := by
    by_cases h0 : u.path = []
    · refine ⟨Or.inr ?_, ?_⟩ <;> simp [h0, pathStops]
    · refine ⟨Or.inr ?_, ?_⟩
      · rcases hp.1 with h | h
        · exact absurd h h0
        · simpa [h0] using h
      · simpa [h0] using hp.2
  have := parseAbs_renderFull u.scheme u.host (if u.path = [] then ['/'] else u.path)
    [] [] hs hh hgood (by simp)
  rw [renderFull_no_query] at this
  have hr : renderClean u = u.scheme ++ ':' :: '/' :: '/' ::
      (u.host ++ (if u.path = [] then ['/'] else u.path)) := rfl
  rw [hr]
  exact this

theorem goodPath_splitFirst (l : List Char) (hl : headIn hostStops l) :
    goodPath (splitFirst pathStops l).1 := by
  refine ⟨?_, splitFirst_fst_not_mem _ _⟩
  cases l with
  | nil => left; rfl
  | cons c cs =>
    simp only [headIn, hostStops, List.mem_cons, List.not_mem_nil, or_false] at hl
    rcases hl with hc | hc | hc
    · subst hc
      right
      exact splitFirst_fst_head _ _ _ (by simp [pathStops])
    · subst hc
      left
      simp [splitFirst, pathStops]
    · subst hc
      left
      simp [splitFirst, pathStops]

theorem parseAbs_good {s : List Char} {u : UrlParts} (h : parseAbs s = some u) :
    goodScheme u.scheme ∧ goodHost u.host ∧ goodPath u.path := by
  simp only [parseAbs] at h
  split_ifs at h with h1 h2 h3 h4 h5 h6
  all_goals
    injection h with h
    subst h
    exact ⟨⟨by assumption, splitFirst_fst_not_mem _ _⟩,
      ⟨by assumption, splitFirst_fst_not_mem _ _⟩,
      goodPath_splitFirst _ (splitFirst_snd_head _ _)⟩

theorem cleanUrl_renderClean_fixed (base : UrlParts) (u : UrlParts)
    (hs : goodScheme u.scheme) (hh : goodHost u.host) (hp : goodPath u.path) :
    cleanUrl base (renderClean u) = some (renderClean u) := by
  unfold cleanUrl
  rw [parseAbs_renderClean u hs hh hp]
  have hne : (if u.path = [] then ['/'] else u.path) ≠ [] := by
    by_cases h0 : u.path = [] <;> simp [h0]
  simp only [renderClean, if_neg hne]

theorem cleanUrl_idempotent (base : UrlParts) (hb : validBase base)
    (s t : List Char) (h : cleanUrl base s = some t) :
    cleanUrl base t = some t := by
  unfold cleanUrl at h
  cases hpa : parseAbs s with
  | some u =>
    rw [hpa] at h
    cases h
    obtain ⟨hs, hh, hp⟩ := parseAbs_good hpa
    exact cleanUrl_renderClean_fixed base u hs hh hp
  | none =>
    rw [hpa] at h
    by_cases hslash : s.head? = some '/'
    · rw [if_pos hslash] at h
      cases h
      refine cleanUrl_renderClean_fixed base _ ?_ ?_ ?_
      · exact hb.1
      · exact hb.2
      · cases s with
        | nil => simp at hslash
        | cons c cs =>
          simp only [List.head?] at hslash
          injection hslash with hc
          subst hc
          exact goodPath_splitFirst _ (by simp [headIn, hostStops])
    · rw [if_neg hslash] at h
      cases h

theorem cleanUrl_query_frag_insensitive (base : UrlParts)
    (scheme host path q1 f1 q2 f2 : List Char)
    (hs : goodScheme scheme) (hh : goodHost host) (hp : goodPath path)
    (hq1 : '#' ∉ q1) (hq2 : '#' ∉ q2) :
    cleanUrl base (renderFull scheme host path q1 f1) =
      cleanUrl base (renderFull scheme host path q2 f2) := by
  unfold cleanUrl
  rw [parseAbs_renderFull scheme host path q1 f1 hs hh hp hq1,
    parseAbs_renderFull scheme host path q2 f2 hs hh hp hq2]
  rfl

/-! ## Content discovery (`discoverInstagramPosts`, `resetDiscoveryState`)

The page is abstracted as a list of `Snapshot`s: what one iteration of the
discovery `while` loop observes (the permalink anchors present, and whether
the scroll changed `document.body.scrollHeight`).  The module-level mutable
state (`allDiscoveredPosts`, `isOnSearchPage`, `currentSearchUrl`) is threaded
explicitly as `DiscState`. -/

theorem addNewPosts_spec (maxPosts : Nat) (us posts seen : List (List Char))
    (hsub : ∀ p ∈ posts, p ∈ seen) (hnd : posts.Nodup) :
    (∀ x ∈ seen, x ∈ (addNewPosts maxPosts us posts seen).2) ∧
    (∀ p ∈ posts, p ∈ (addNewPosts maxPosts us posts seen).1) ∧
    (∀ p ∈ (addNewPosts maxPosts us posts seen).1,
      p ∈ (addNewPosts maxPosts us posts seen).2) ∧
    (addNewPosts maxPosts us posts seen).1.Nodup ∧
    (∀ p ∈ (addNewPosts maxPosts us posts seen).1, p ∈ posts ∨ p ∉ seen) ∧
    (posts.length ≤ maxPosts → (addNewPosts maxPosts us posts seen).1.length ≤ maxPosts) := by
  induction us generalizing posts seen with
  | nil =>
    exact ⟨fun x hx => hx, fun p hp => hp, hsub, hnd, fun p hp => Or.inl hp, fun h => h⟩
  | cons u us ih =>
    by_cases hc : u ∉ posts ∧ u ∉ seen ∧ posts.length < maxPosts
    · have hsub' : ∀ p ∈ posts ++ [u], p ∈ seen ++ [u] := by
        intro p hp
        rcases List.mem_append.mp hp with h | h
        · exact List.mem_append.mpr (Or.inl (hsub p h))
        · exact List.mem_append.mpr (Or.inr h)
      have hnd' : (posts ++ [u]).Nodup := by
        simp [List.nodup_append, hnd, hc.1]
      obtain ⟨i1, i2, i3, i4, i5, i6⟩ := ih (posts ++ [u]) (seen ++ [u]) hsub' hnd'
      rw [addNewPosts, if_pos hc]
      refine ⟨?_, ?_, i3, i4, ?_, ?_⟩
      · intro x hx
        exact i1 x (List.mem_append.mpr (Or.inl hx))
      · intro p hp
        exact i2 p (List.mem_append.mpr (Or.inl hp))
      · intro p hp
        rcases i5 p hp with h | h
        · rcases List.mem_append.mp h with h2 | h2
          · exact Or.inl h2
          · simp only [List.mem_singleton] at h2
            exact Or.inr (h2 ▸ hc.2.1)
        · exact Or.inr (fun hmem => h (List.mem_append.mpr (Or.inl hmem)))
      · intro _
        exact i6 (by simpa using hc.2.2)
    · rw [addNewPosts, if_neg hc]
      exact ih posts seen hsub hnd

theorem discoverLoop_spec (maxPosts : Nat) (snaps : List Snapshot)
    (posts seen : List (List Char)) (cfs att : Nat)
    (hsub : ∀ p ∈ posts, p ∈ seen) (hnd : posts.Nodup) :
    (∀ x ∈ seen, x ∈ (discoverLoop maxPosts snaps posts seen cfs att).2.1) ∧
    (∀ p ∈ (discoverLoop maxPosts snaps posts seen cfs att).1,
      p ∈ (discoverLoop maxPosts snaps posts seen cfs att).2.1) ∧
    (discoverLoop maxPosts snaps posts seen cfs att).1.Nodup ∧
    (∀ p ∈ (discoverLoop maxPosts snaps posts seen cfs att).1, p ∈ posts ∨ p ∉ seen) ∧
    (posts.length ≤ maxPosts →
      (discoverLoop maxPosts snaps posts seen cfs att).1.length ≤ maxPosts) := by
  induction snaps generalizing posts seen cfs att with
  | nil =>
    rw [discoverLoop]
    by_cases h : maxPosts ≤ posts.length
    · rw [if_pos h]
      exact ⟨fun x hx => hx, hsub, hnd, fun p hp => Or.inl hp, fun h2 => h2⟩
    · rw [if_neg h]
      exact ⟨fun x hx => hx, hsub, hnd, fun p hp => Or.inl hp, fun h2 => h2⟩
  | cons snap rest ih =>
    rw [discoverLoop]
    by_cases h : maxPosts ≤ posts.length
    · rw [if_pos h]
      exact ⟨fun x hx => hx, hsub, hnd, fun p hp => Or.inl hp, fun h2 => h2⟩
    rw [if_neg h]
    obtain ⟨a1, a2, a3, a4, a5, a6⟩ :=
      addNewPosts_spec maxPosts (extractLinks snap.links) posts seen hsub hnd
    set pr := addNewPosts maxPosts (extractLinks snap.links) posts seen with hpr
    have hlen : pr.1.length ≤ maxPosts := a6 (Nat.le_of_lt (Nat.lt_of_not_le h))
    by_cases h2 : maxPosts ≤ pr.1.length
    · rw [if_pos h2]
      exact ⟨a1, a3, a4, a5, fun _ => hlen⟩
    rw [if_neg h2]
    by_cases h3 : snap.heightChanged
    · rw [if_pos h3]
      obtain ⟨b1, b2, b3, b4, b5⟩ := ih pr.1 pr.2 0 (att + 1) a3 a4
      refine ⟨fun x hx => b1 x (a1 x hx), b2, b3, ?_, fun _ => b5 hlen⟩
      intro p hp
      rcases b4 p hp with hin | hout
      · rcases a5 p hin with h4 | h4
        · exact Or.inl h4
        · exact Or.inr h4
      · exact Or.inr (fun hmem => hout (a1 p hmem))
    rw [if_neg h3]
    by_cases h4 : 10 ≤ cfs + 1
    · rw [if_pos h4]
      exact ⟨a1, a3, a4, a5, fun _ => hlen⟩
    rw [if_neg h4]
    obtain ⟨b1, b2, b3, b4, b5⟩ := ih pr.1 pr.2 (cfs + 1) (att + 1) a3 a4
    refine ⟨fun x hx => b1 x (a1 x hx), b2, b3, ?_, fun _ => b5 hlen⟩
    intro p hp
    rcases b4 p hp with hin | hout
    · rcases a5 p hin with h5 | h5
      · exact Or.inl h5
      · exact Or.inr h5
    · exact Or.inr (fun hmem => hout (a1 p hmem))

/-! ## Login gate (`ensureInstagramLoggedIn`)

The DOM is abstracted as oracles: `q sel` is whether `document.querySelector(sel)`
finds an element, `qErrText sel` whether it finds one with nonempty text.
The two in-page classification evaluations of `ensureInstagramLoggedIn` are
embedded separately: the initial check and the post-submit check. -/

/-! ## Supporting lemmas for the orchestrator loop -/

theorem processBatch_no_success (target succ : Nat) (posts : List PostOutcome)
    (h : ∀ p ∈ posts, p ≠ PostOutcome.success) :
    processBatch target succ posts = succ := by
  induction posts generalizing succ with
  | nil => rfl
  | cons p rest ih =>
    rw [processBatch]
    by_cases hle : target ≤ succ
    · rw [if_pos hle]
    · rw [if_neg hle]
      have hp : p ≠ PostOutcome.success := h p (by simp)
      rw [if_neg hp]
      exact ih succ (fun x hx => h x (by simp [hx]))

theorem processBatch_of_le (target succ : Nat) (posts : List PostOutcome)
    (h : target ≤ succ) : processBatch target succ posts = succ := by
  cases posts with
  | nil => rfl
  | cons p rest => rw [processBatch, if_pos h]

theorem autoCommentLoop_trace_sizes (target : Nat) (batches : List BatchInput) :
    ∀ (succ ceb : Nat) (trace : List (Nat × Nat)),
      (∀ x ∈ trace, x.1 = requestedBatchSize target) →
      ∀ x ∈ (autoCommentLoop target batches succ ceb trace).1,
        x.1 = requestedBatchSize target := by
  induction batches with
  | nil =>
    intro succ ceb trace htr
    rw [autoCommentLoop]
    by_cases hle : target ≤ succ
    · rw [if_pos hle]; exact htr
    · rw [if_neg hle]; exact htr
  | cons b rest ih =>
    intro succ ceb trace htr
    have htr1 : ∀ x ∈ trace ++ [(requestedBatchSize target, succ)],
        x.1 = requestedBatchSize target := by
      intro x hx
      rcases List.mem_append.mp hx with h | h
      · exact htr x h
      · simp only [List.mem_singleton] at h
        rw [h]
    cases b with
    | fatal =>
      rw [autoCommentLoop]
      by_cases hle : target ≤ succ
      · rw [if_pos hle]; exact htr
      · rw [if_neg hle]; exact htr1
    | batch posts =>
      rw [autoCommentLoop]
      by_cases hle : target ≤ succ
      · rw [if_pos hle]; exact htr
      rw [if_neg hle]
      by_cases hpe : posts.isEmpty = true
      · rw [if_pos hpe]
        by_cases hceb : 5 ≤ ceb + 1
        · rw [if_pos hceb]; exact htr1
        · rw [if_neg hceb]
          exact ih succ (ceb + 1) _ htr1
      · rw [if_neg hpe]
        exact ih (processBatch target succ posts) 0 _ htr1

/-- Claim C1: the auto-comment batch loop of `runAction` stops only because
the success counter reached the target, because 5 consecutive empty batches
occurred, or because a batch-level (collaborator) error was thrown; in
particular a non-empty batch producing zero successes merely resets the
empty-batch counter and continues the loop. -/
theorem autoCommentLoop_stops_only_three_reasons (target : Nat) :
    (∀ (succ ceb : Nat) (trace : List (Nat × Nat)) (posts : List PostOutcome)
      (rest : List BatchInput), succ < target → posts ≠ [] →
      (∀ p ∈ posts, p ≠ PostOutcome.success) →
      autoCommentLoop target (BatchInput.batch posts :: rest) succ ceb trace =
        autoCommentLoop target rest succ 0
          (trace ++ [(requestedBatchSize target, succ)])) ∧
    (∀ (batches : List BatchInput) (succ ceb : Nat) (trace : List (Nat × Nat))
      (n : Nat) (r : StopReason),
      (autoCommentLoop target batches succ ceb trace).2 = some (n, r) →
      ((r = StopReason.targetReached ∧ target ≤ n) ∨
        (r = StopReason.contentExhausted ∧ n < target) ∨
        (r = StopReason.fatalError ∧ n < target))) := by
  constructor
  · intro succ ceb trace posts rest hlt hne hns
    have hpe : ¬(posts.isEmpty = true) := by
      cases posts with
      | nil => exact absurd rfl hne
      | cons a as => simp
    rw [autoCommentLoop, if_neg (Nat.not_le.mpr hlt)]
    rw [if_neg hpe, processBatch_no_success target succ posts hns]
  · intro batches
    induction batches with
    | nil =>
      intro succ ceb trace n r h
      rw [autoCommentLoop] at h
      by_cases hle : target ≤ succ
      · rw [if_pos hle] at h
        simp only [Option.some.injEq, Prod.mk.injEq] at h
        exact Or.inl ⟨h.2.symm, h.1 ▸ hle⟩
      · rw [if_neg hle] at h
        exact Option.noConfusion h
    | cons b rest ih =>
      intro succ ceb trace n r h
      cases b with
      | fatal =>
        rw [autoCommentLoop] at h
        by_cases hle : target ≤ succ
        · rw [if_pos hle] at h
          simp only [Option.some.injEq, Prod.mk.injEq] at h
          exact Or.inl ⟨h.2.symm, h.1 ▸ hle⟩
        · rw [if_neg hle] at h
          simp only [Option.some.injEq, Prod.mk.injEq] at h
          exact Or.inr (Or.inr ⟨h.2.symm, h.1 ▸ Nat.lt_of_not_le hle⟩)
      | batch posts =>
        rw [autoCommentLoop] at h
        by_cases hle : target ≤ succ
        · rw [if_pos hle] at h
          simp only [Option.some.injEq, Prod.mk.injEq] at h
          exact Or.inl ⟨h.2.symm, h.1 ▸ hle⟩
        rw [if_neg hle] at h
        by_cases hpe : posts.isEmpty = true
        · rw [if_pos hpe] at h
          by_cases hceb : 5 ≤ ceb + 1
          · rw [if_pos hceb] at h
            simp only [Option.some.injEq, Prod.mk.injEq] at h
            exact Or.inr (Or.inl ⟨h.2.symm, h.1 ▸ Nat.lt_of_not_le hle⟩)
          · rw [if_neg hceb] at h
            exact ih succ (ceb + 1) _ n r h
        · rw [if_neg hpe] at h
          exact ih (processBatch target succ posts) 0 _ n r h

/-- Claim C1 witness: with target 5 and a non-empty batch in which the only
item fails, the loop continues into the remaining input with the
empty-batch counter reset, instead of stopping. -/
theorem autoCommentLoop_stops_only_three_reasons_witness :
    autoCommentLoop 5 [BatchInput.batch [PostOutcome.commentFailed]] 0 3 [] =
      autoCommentLoop 5 [] 0 0 [(requestedBatchSize 5, 0)] := by
  have h := (autoCommentLoop_stops_only_three_reasons 5).1 0 3 []
    [PostOutcome.commentFailed] [] (by decide) (by decide) (by decide)
  simpa using h

/-- Claim C9 counterexample: in a run with target 5 where the first batch
yields 3 successes, the second loop iteration requests a batch of size 10,
whereas min(10, 2 × remaining) = min(10, 2 × (5 − 3)) = 4. -/
theorem batchSize_remaining_counterexample :
    ((autoCommentLoop 5
        [BatchInput.batch [PostOutcome.success, PostOutcome.success, PostOutcome.success],
          BatchInput.batch [PostOutcome.commentFailed]] 0 0 []).1)[1]? =
      some (10, 3) ∧ batchSizeSpec 5 3 = 4 ∧ (10 : Nat) ≠ 4 := by
  refine ⟨?_, by decide, by decide⟩
  decide

/-- Claim C9 (amended): on every iteration of the auto-comment batch loop the
requested batch size equals min(10, 2 × targetCount) — computed from the
fixed target, independent of the number of successes still remaining. -/
theorem batchSize_constant_amended (target : Nat) (batches : List BatchInput)
    (succ ceb : Nat) :
    ∀ x ∈ (autoCommentLoop target batches succ ceb []).1,
      x.1 = requestedBatchSize target :=
  autoCommentLoop_trace_sizes target batches succ ceb [] (by simp)

/-- Claim C9 witness. -/
theorem batchSize_constant_amended_witness :
    (10, 0) ∈ (autoCommentLoop 5 [BatchInput.batch [PostOutcome.commentFailed]] 0 0 []).1 ∧
    (10, 0).1 = requestedBatchSize 5 :=
  ⟨by decide, batchSize_constant_amended 5 [BatchInput.batch [PostOutcome.commentFailed]]
    0 0 (10, 0) (by decide)⟩

/-- Claim C6: when the prior-action cache reports an existing reply,
`instagramComment` returns a skip outcome (skipped flag set, success false,
distinct from a failure reason) with no page effects at all, and the
orchestrator's per-batch counting treats a skipped item exactly like an
unprocessed one: the success counter is unchanged and processing moves on. -/
theorem priorReply_skip_no_mutation (env : CommentEnv) (skipNav : Bool)
    (target succ : Nat) (rest : List PostOutcome)
    (h : env.alreadyCommented = true) :
    instagramComment env skipNav =
      (⟨false, true, some msgAlreadyCommented⟩, []) ∧
    processBatch target succ (PostOutcome.commentSkipped :: rest) =
      processBatch target succ rest := by
  constructor
  · rw [instagramComment, if_pos h]
  · rw [processBatch]
    by_cases hle : target ≤ succ
    · rw [if_pos hle, processBatch_of_le target succ rest hle]
    · rw [if_neg hle, if_neg (fun hcon => PostOutcome.noConfusion hcon)]

/-- Claim C6 witness. -/
theorem priorReply_skip_no_mutation_witness :
    instagramComment ⟨true, false, [], false, false, false, false, false, false, false⟩ false =
      (⟨false, true, some msgAlreadyCommented⟩, []) ∧
    processBatch 5 0 (PostOutcome.commentSkipped :: [PostOutcome.success]) =
      processBatch 5 0 [PostOutcome.success] :=
  priorReply_skip_no_mutation
    ⟨true, false, [], false, false, false, false, false, false, false⟩ false 5 0
    [PostOutcome.success] rfl

/-! ## Supporting lemma for the favorite action -/

theorem instagramLike_mem_of_ok (env : LikeEnv) (liked : List (List Char))
    (url : List Char) (st : List (List Char)) (effs : List LikeEffect)
    (h : instagramLike env liked url = (.ok true, st, effs)) : url ∈ st := by
  unfold instagramLike at h
  split_ifs at h with h1 h2 h3 h4 h5 h6 h7 h8 <;> simp_all
  all_goals exact h.1 ▸ List.mem_cons_self url liked

/-- Claim C7: a successful `instagramLike` call leaves the url in the in-run
liked set, so a second call on the same url (whatever the page then shows)
returns success immediately, mutates nothing, and performs no page effects. -/
theorem instagramLike_idempotent_in_run (env1 env2 : LikeEnv)
    (liked : List (List Char)) (url : List Char) (st : List (List Char))
    (effs : List LikeEffect)
    (h : instagramLike env1 liked url = (.ok true, st, effs)) :
    url ∈ st ∧ instagramLike env2 st url = (.ok true, st, []) := by
  have hm := instagramLike_mem_of_ok env1 liked url st effs h
  exact ⟨hm, by rw [instagramLike, if_pos hm]⟩

/-- Claim C7 witness: a like that succeeds through the first API endpoint,
followed by a second call that succeeds with no effects. -/
theorem instagramLike_idempotent_in_run_witness :
    ("p1".data ∈ ["p1".data] ∧
      instagramLike ⟨false, [], true, false, false, false, true, true⟩
        ["p1".data] ("p1".data) = (.ok true, ["p1".data], [])) :=
  instagramLike_idempotent_in_run ⟨false, [], true, false, true, false, false, false⟩
    ⟨false, [], true, false, false, false, true, true⟩ [] ("p1".data) ["p1".data]
    [LikeEffect.navigate, LikeEffect.apiLike1] (by rfl)

/-! ## Supporting lemmas for discovery -/

theorem discover_ok (c : SearchCriteria) (lw : Bool) (snaps : List Snapshot)
    (m : Nat) (st : DiscState) (p : List (List Char))
    (h : (discoverInstagramPosts c lw snaps m st).result = .ok p) :
    (∀ x ∈ st.seen, x ∈ (discoverInstagramPosts c lw snaps m st).state.seen) ∧
    (∀ x ∈ p, x ∈ (discoverInstagramPosts c lw snaps m st).state.seen) ∧
    p.Nodup ∧ (∀ x ∈ p, x ∉ st.seen) ∧ p.length ≤ m := by
  obtain ⟨d1, d2, d3, d4, d5⟩ :=
    discoverLoop_spec m snaps [] st.seen 0 0 (by simp) List.nodup_nil
  cases hu : searchUrlOf c with
  | none =>
    simp [discoverInstagramPosts, hu] at h
  | some url =>
    cases lw with
    | true =>
      simp [discoverInstagramPosts, hu] at h
    | false =>
      simp only [discoverInstagramPosts, hu] at h ⊢
      simp only [Bool.false_eq_true, if_false] at h ⊢
      have hseen : ∀ b : Bool, (if b = true then
          { st with isOnSearchPage := true, currentSearchUrl := some url }
        else st).seen = st.seen := by
        intro b; cases b <;> rfl
      rw [hseen] at h ⊢
      simp only [Except.ok.injEq] at h
      subst h
      refine ⟨d1, d2, d3, ?_, d5 (by simp)⟩
      intro x hx
      rcases d4 x hx with hin | hout
      · exact absurd hin (List.not_mem_nil x)
      · exact hout

/-- Claim C2: within one discovery session (no intervening
`resetDiscoveryState`), the seen set `allDiscoveredPosts` only grows across
two consecutive `discoverInstagramPosts` calls, each call's output is
duplicate-free, and no item is emitted by both calls. -/
theorem discover_dedup_across_calls
    (ca cb : SearchCriteria) (lwa lwb : Bool) (sa sb : List Snapshot)
    (ma mb : Nat) (st0 : DiscState) (p1 p2 : List (List Char))
    (h1 : (discoverInstagramPosts ca lwa sa ma st0).result = .ok p1)
    (h2 : (discoverInstagramPosts cb lwb sb mb
        (discoverInstagramPosts ca lwa sa ma st0).state).result = .ok p2) :
    (∀ x ∈ st0.seen, x ∈ (discoverInstagramPosts ca lwa sa ma st0).state.seen) ∧
    (∀ x ∈ (discoverInstagramPosts ca lwa sa ma st0).state.seen,
      x ∈ (discoverInstagramPosts cb lwb sb mb
        (discoverInstagramPosts ca lwa sa ma st0).state).state.seen) ∧
    p1.Nodup ∧ p2.Nodup ∧ (∀ x ∈ p1, x ∉ p2) := by
  obtain ⟨a1, a2, a3, a4, a5⟩ := discover_ok ca lwa sa ma st0 p1 h1
  obtain ⟨b1, b2, b3, b4, b5⟩ := discover_ok cb lwb sb mb _ p2 h2
  refine ⟨a1, b1, a3, b3, ?_⟩
  intro x hx hx2
  exact b4 x hx2 (a2 x hx)
/-- Claim C2 witness: a first call over a page carrying one permalink (with a
query string) emits its canonical form once; a second call over the same page
emits nothing, and the seen set only grew. -/
theorem discover_dedup_across_calls_witness :
    (∀ x ∈ resetDiscoveryState.seen,
      x ∈ (discoverInstagramPosts tagW false [snapW] 1 resetDiscoveryState).state.seen) ∧
    (∀ x ∈ (discoverInstagramPosts tagW false [snapW] 1 resetDiscoveryState).state.seen,
      x ∈ (discoverInstagramPosts tagW false [snapW] 1
        (discoverInstagramPosts tagW false [snapW] 1 resetDiscoveryState).state).state.seen) ∧
    List.Nodup [postW] ∧ List.Nodup ([] : List (List Char)) ∧
    (∀ x ∈ [postW], x ∉ ([] : List (List Char))) :=
  discover_dedup_across_calls tagW tagW false false [snapW] [snapW] 1 1
    resetDiscoveryState [postW] [] rfl rfl

theorem discoverLoop_attempts_bound (m : Nat) (snaps : List Snapshot) :
    ∀ (posts seen : List (List Char)) (cfs att : Nat), cfs ≤ 9 →
      (∀ s ∈ snaps, s.heightChanged = false) →
      (discoverLoop m snaps posts seen cfs att).2.2 ≤ att + (10 - cfs) := by
  induction snaps with
  | nil =>
    intro posts seen cfs att hcfs hall
    rw [discoverLoop]
    by_cases h : m ≤ posts.length
    · rw [if_pos h]
      exact Nat.le_add_right _ _
    · rw [if_neg h]
      exact Nat.le_add_right _ _
  | cons snap rest ih =>
    intro posts seen cfs att hcfs hall
    rw [discoverLoop]
    by_cases h : m ≤ posts.length
    · rw [if_pos h]
      exact Nat.le_add_right _ _
    rw [if_neg h]
    set pr := addNewPosts m (extractLinks snap.links) posts seen with hpr
    by_cases h2 : m ≤ pr.1.length
    · rw [if_pos h2]
      show att + 1 ≤ att + (10 - cfs)
      omega
    rw [if_neg h2]
    have hsnap : snap.heightChanged = false := hall snap (by simp)
    rw [if_neg (by simp [hsnap])]
    by_cases h4 : 10 ≤ cfs + 1
    · rw [if_pos h4]
      show att + 1 ≤ att + (10 - cfs)
      omega
    · rw [if_neg h4]
      have hrec := ih pr.1 pr.2 (cfs + 1) (att + 1) (by omega)
        (fun s hs => hall s (by simp [hs]))
      omega

/-- Claim C8: every successful `discoverInstagramPosts` call returns at most
`maxPosts` items; and when scrolling consistently fails (page height never
changes), the discovery loop performs at most `10 - cfs` further iterations
before terminating normally — in particular at most 10 from a fresh start. -/
theorem discover_length_and_scroll_bound :
    (∀ (c : SearchCriteria) (lw : Bool) (snaps : List Snapshot) (m : Nat)
      (st : DiscState) (p : List (List Char)),
      (discoverInstagramPosts c lw snaps m st).result = .ok p → p.length ≤ m) ∧
    (∀ (m : Nat) (snaps : List Snapshot) (posts seen : List (List Char))
      (cfs att : Nat), cfs ≤ 9 →
      (∀ s ∈ snaps, s.heightChanged = false) →
      (discoverLoop m snaps posts seen cfs att).2.2 ≤ att + (10 - cfs)) :=
  ⟨fun c lw snaps m st p h => (discover_ok c lw snaps m st p h).2.2.2.2,
   fun m snaps posts seen cfs att h1 h2 =>
     discoverLoop_attempts_bound m snaps posts seen cfs att h1 h2⟩

/-- Claim C8 witness: the concrete one-snapshot call returns 1 ≤ 1 item, and
on a page whose height never changes the loop from a fresh start performs at
most 10 iterations. -/
theorem discover_length_and_scroll_bound_witness :
    List.length [postW] ≤ 1 ∧
    (discoverLoop 5 [⟨[], false⟩, ⟨[], false⟩] [] [] 0 0).2.2 ≤ 0 + (10 - 0) :=
  ⟨discover_length_and_scroll_bound.1 tagW false [snapW] 1 resetDiscoveryState
      [postW] rfl,
   discover_length_and_scroll_bound.2 5 [⟨[], false⟩, ⟨[], false⟩] [] [] 0 0
      (by decide) (by decide)⟩

/-- Claim C10: calling `discoverInstagramPosts` with a criterion whose
`hashtag` and `keywords` are both absent (or empty, which JS treats as falsy)
throws `Either hashtag or keywords must be provided` before any page
navigation or interaction, leaving the discovery state untouched. -/
theorem discover_invalid_criteria_throws_early (c : SearchCriteria) (lw : Bool)
    (snaps : List Snapshot) (m : Nat) (st : DiscState)
    (h1 : truthyStr c.hashtag = false) (h2 : truthyStr c.keywords = false) :
    discoverInstagramPosts c lw snaps m st = ⟨.error errNoCriteria, st, false⟩ := by
  have hu : searchUrlOf c = none := by
    rw [searchUrlOf, if_neg (by simp [h1]), if_neg (by simp [h2])]
  simp [discoverInstagramPosts, hu]

/-- Claim C10 witness: the empty criterion. -/
theorem discover_invalid_criteria_throws_early_witness :
    discoverInstagramPosts ⟨none, none⟩ false [snapW] 5 resetDiscoveryState =
      ⟨.error errNoCriteria, resetDiscoveryState, false⟩ :=
  discover_invalid_criteria_throws_early ⟨none, none⟩ false [snapW] 5
    resetDiscoveryState rfl rfl
/-- Claim C3: the ItemId canonicalization `clean` (keep origin+path, drop
query and fragment) is idempotent — any canonicalized URL re-canonicalizes to
itself — and query/fragment-insensitive: two well-formed URLs differing only
in query and fragment canonicalize to the same ItemId. -/
theorem canon_idempotent_query_insensitive (base : UrlParts) (hb : validBase base) :
    (∀ s t : List Char, cleanUrl base s = some t → cleanUrl base t = some t) ∧
    (∀ scheme host path q1 f1 q2 f2 : List Char,
      goodScheme scheme → goodHost host → goodPath path → '#' ∉ q1 → '#' ∉ q2 →
      cleanUrl base (renderFull scheme host path q1 f1) =
        cleanUrl base (renderFull scheme host path q2 f2)) :=
  ⟨cleanUrl_idempotent base hb,
    fun scheme host path q1 f1 q2 f2 hs hh hp hq1 hq2 =>
      cleanUrl_query_frag_insensitive base scheme host path q1 f1 q2 f2 hs hh hp hq1 hq2⟩

/-- Claim C3 witness: `canon("https://x/p/abc?hl=en") = canon("https://x/p/abc")`
and canonicalizing the canonical form is a no-op. -/
theorem canon_idempotent_query_insensitive_witness :
    cleanUrl igBase urlHlW = cleanUrl igBase urlPlainW ∧
    cleanUrl igBase urlPlainW = some urlPlainW := by
  have hb : validBase igBase := by decide
  constructor
  · have h := (canon_idempotent_query_insensitive igBase hb).2 schemeHttps hostXW
      pathAbcW queryHlW [] [] [] (by decide) (by decide) (by decide) (by decide)
      (by decide)
    have e1 : renderFull schemeHttps hostXW pathAbcW queryHlW [] = urlHlW := by decide
    have e2 : renderFull schemeHttps hostXW pathAbcW [] [] = urlPlainW := by decide
    rw [e1, e2] at h
    exact h
  · exact (canon_idempotent_query_insensitive igBase hb).1 urlPlainW urlPlainW
      (by decide)
/-- Claim C4 counterexample: a submit control is found and clicked but the
post-submit verification observes neither a cleared input nor the reply text
among rendered content — yet `instagramComment` still reports success (the
source logs "verification failed, but assuming success"), not the failure
outcome the claim requires. -/
theorem instagramComment_verification_counterexample :
    (instagramComment c4Env false).1 = ⟨true, false, none⟩ ∧
    c4Env.verifyTextFound = false ∧ c4Env.inputClearedAfterSubmit = false :=
  ⟨rfl, rfl, rfl⟩

theorem commentAfterInput_fst (env : CommentEnv) (effs : List PageEffect) :
    (commentAfterInput env effs).1 =
      (if env.submitButtonFound then ⟨true, false, none⟩
        else if env.enterPosted then ⟨true, false, none⟩
        else ⟨false, false, some msgButtonNotFound⟩) := by
  rw [commentAfterInput]
  by_cases hs : env.submitButtonFound = true
  · rw [if_pos hs, if_pos hs]
  · rw [if_neg hs, if_neg hs]
    by_cases he : env.enterPosted = true
    · rw [if_pos he, if_pos he]
    · rw [if_neg he, if_neg he]

/-- Claim C4 (amended): when the prior-action check is negative and navigation
does not throw, `instagramComment` reports success whenever a submit control
is found and clicked — regardless of the verification signals; with no submit
control it succeeds only if the Enter-key fallback leaves the reply text
visible; it returns a failure outcome carrying `Comment input field not
found` / `Post button not found` when the input or submit control is missing;
and it never throws (the outer catch converts exceptions to failure
outcomes). -/
theorem instagramComment_outcomes_amended (env : CommentEnv) (skipNav : Bool)
    (h1 : env.alreadyCommented = false) (h2 : env.navThrows = false) :
    (instagramComment env skipNav).1 =
      (if env.inputFound || env.inputFoundAfterScroll then
        (if env.submitButtonFound then ⟨true, false, none⟩
          else if env.enterPosted then ⟨true, false, none⟩
          else ⟨false, false, some msgButtonNotFound⟩)
        else ⟨false, false, some msgInputNotFound⟩) := by
  rw [instagramComment, if_neg (by simp [h1]), if_neg (by simp [h2])]
  by_cases hi : env.inputFound = true
  · rw [if_pos hi, commentAfterInput_fst]
    simp [hi]
  · rw [if_neg hi]
    by_cases his : env.inputFoundAfterScroll = true
    · rw [if_pos his, commentAfterInput_fst]
      simp [hi, his]
    · rw [if_neg his]
      simp [hi, his]
/-- Claim C4 witness: with no comment input found anywhere, the outcome is the
`Comment input field not found` failure. -/
theorem instagramComment_outcomes_amended_witness :
    (instagramComment c4EnvW true).1 =
      (if c4EnvW.inputFound || c4EnvW.inputFoundAfterScroll then
        (if c4EnvW.submitButtonFound then ⟨true, false, none⟩
          else if c4EnvW.enterPosted then ⟨true, false, none⟩
          else ⟨false, false, some msgButtonNotFound⟩)
        else ⟨false, false, some msgInputNotFound⟩) :=
  instagramComment_outcomes_amended c4EnvW true rfl rfl
/-- Claim C5 counterexample: a page state with no chrome indicators, no login
form, not on the login route and no error text.  The four-signal
classification of the initial check says NOT authenticated (no indicator
present), yet the post-submit check accepts it as a successful login — so the
post-submit check is not a re-run of the same four-signal classification. -/
theorem postSubmitCheck_differs_counterexample :
    initialLoginCheck emptyRedirectPage = false ∧
    postSubmitLoginCheck emptyRedirectPage = true :=
  ⟨rfl, rfl⟩

/-- Claim C5 (amended): the initial check is the fail-closed four-signal AND —
any single negative signal (login-form field present, on the login route,
login/sign-up title, or no chrome indicator found) forces "not
authenticated" — but the post-submit check is a different, weaker test:
success iff (some chrome indicator is present OR the page is no longer the
login page/form) AND no error signal is present. -/
theorem loginChecks_amended :
    (∀ p : LoginPage,
      (loginFormElements.any p.q || p.urlHasLoginRoute || p.titleHasLoginWord
        || p.titleHasSignupWord || !(loginIndicators.any p.q)) = true →
      initialLoginCheck p = false) ∧
    (∀ p : LoginPage,
      postSubmitLoginCheck p =
        ((postSubmitIndicators.any p.q || !stillOnLoginPage p)
          && !hasLoginErrors p)) := by
  constructor
  · intro p h
    rw [initialLoginCheck]
    by_cases hr : p.urlHasLoginRoute = true
    · rw [if_pos hr]
    · rw [if_neg hr]
      simp only [Bool.or_eq_true, Bool.not_eq_true'] at h
      rcases h with ((((hf | hu) | ht1) | ht2) | hni)
      · simp [hf]
      · exact absurd hu hr
      · simp [ht1]
      · simp [ht2]
      · simp [hni]
  · intro p
    rfl
/-- Claim C5 witness: a page still showing the username field is classified
not authenticated by the initial four-signal check, and the post-submit check
computes its weaker formula on the same page. -/
theorem loginChecks_amended_witness :
    initialLoginCheck loginFormPage = false ∧
    postSubmitLoginCheck loginFormPage =
      ((postSubmitIndicators.any loginFormPage.q || !stillOnLoginPage loginFormPage)
        && !hasLoginErrors loginFormPage) :=
  ⟨loginChecks_amended.1 loginFormPage (by decide),
   loginChecks_amended.2 loginFormPage⟩

end PuppeteerSocial
